import Mathlib

/-!
Verification of `src/imap_move_resume.py` against its specification.

The shallow embedding below mirrors the source file function by function:

* the sqlite transfer ledger (`DB_SCHEMA`, `record_transfer`,
  `already_transferred_by_src`) becomes a list of `TransferRecord`s with
  insert-or-replace semantics keyed by `(src_mailbox, src_uid)`;
* IMAP sessions are replaced by oracles (`MailboxOps`, `MEnv`) that fix, for
  every protocol call the code can make, whether that call succeeds, aborts
  with `imaplib.IMAP4.abort`, or raises some other exception;
* `safe_search`, the fetch/append retry loops, the per-uid loop, the per-batch
  loop, `migrate_mailbox` and the mailbox loop of `main` are translated
  control-point by control-point, threading the ledger plus an effect `Trace`
  (successful appends, attempted moves, successful moves, ledger writes,
  reconnect counts) and an `Outcome` recording whether the Python code would
  return normally or propagate an exception.
-/

/-- A Python value used as a message key: `imapclient` search returns ints,
but the ledger functions accept anything and call `str()` on it. -/
inductive Uid where
  | num : Nat → Uid
  | str : String → Uid
  deriving DecidableEq

/-- Python `str()` applied to a uid value. -/
def Uid.pyStr : Uid → String
  | .num n => toString n
  | .str s => s

/-- Python truthiness of a uid value (`if dst_uid` in `record_transfer`). -/
def Uid.truthy : Uid → Bool
  | .num n => n != 0
  | .str s => s != ""

/-- One row of the `transfers` table created by `DB_SCHEMA`
(the integer rowid and the `transferred_at` default are not modelled;
no claim mentions them). -/
structure TransferRecord where
  src_mailbox : String
  src_uid : String
  dst_mailbox : Option String
  dst_uid : Option String
  message_id : Option String
  deriving DecidableEq

/-- The `transfers` table as a list of rows. -/
abbrev Ledger := List TransferRecord

/-- The `WHERE src_mailbox = ? AND src_uid = ?` test, and equally the
`UNIQUE(src_mailbox, src_uid)` conflict test. -/
def matchesKey (mb uid : String) (r : TransferRecord) : Bool :=
  r.src_mailbox == mb && r.src_uid == uid

/-- `record_transfer`: `INSERT OR REPLACE` on the unique key
`(src_mailbox, src_uid)` — rows colliding on the key are deleted and the new
row inserted — followed by `conn.commit()`.  Both `src_uid` and (when truthy)
`dst_uid` pass through Python `str()`. -/
def record_transfer (db : Ledger) (src_mailbox : String) (src_uid : Uid)
    (dst_mailbox : Option String) (dst_uid : Option Uid)
    (message_id : Option String) : Ledger :=
  db.filter (fun r => !(matchesKey src_mailbox src_uid.pyStr r)) ++
    [{ src_mailbox := src_mailbox
       src_uid := src_uid.pyStr
       dst_mailbox := dst_mailbox
       dst_uid := match dst_uid with
         | some u => if u.truthy then some u.pyStr else none
         | none => none
       message_id := message_id }]

/-- `already_transferred_by_src`: `SELECT 1 ... WHERE src_mailbox = ? AND
src_uid = ? LIMIT 1`; the Python caller only uses the row's truthiness, so we
return a `Bool`. -/
def already_transferred_by_src (db : Ledger) (src_mailbox : String)
    (src_uid : Uid) : Bool :=
  db.any (matchesKey src_mailbox src_uid.pyStr)

/-- Oracles for the `select_folder` / `create_folder` calls of
`ensure_mailbox` on one session.  `reselectOk` is the outcome a second
`select_folder` after a successful create would have; the source code never
performs that call — only the spec-modelled variant below consults it. -/
structure MailboxOps where
  selectOk : String → Bool
  createOk : String → Bool
  reselectOk : String → Bool

/-- `ensure_mailbox`: try `select_folder`, return `True`; on any exception try
`create_folder` and return `True` on success; on a second exception log and
return `False`.  Note: after a successful create the code returns `True`
immediately, without re-selecting. -/
def ensure_mailbox (ops : MailboxOps) (mailbox : String) : Bool :=
  if ops.selectOk mailbox then true
  else if ops.createOk mailbox then true
  else false

/-- The `ensureMailboxSelected` contract as the spec words it (select; on
failure create *then re-select*; false exactly when both paths fail), written
only for comparison with the source's `ensure_mailbox`. -/
def ensureMailboxSelected_spec (ops : MailboxOps) (mailbox : String) : Bool :=
  if ops.selectOk mailbox then true
  else if ops.createOk mailbox then ops.reselectOk mailbox
  else false

/-- Outcome of one `client.search` call inside `safe_search`:
success, `imaplib.IMAP4.abort`, or any other exception. -/
inductive SearchAttempt where
  | ok : List Nat → SearchAttempt
  | abort : String → SearchAttempt
  | err : String → SearchAttempt
  deriving DecidableEq

/-- Result of `safe_search` as Python sees it: a returned uid list, a
re-raised `abort`, a propagated non-abort exception, or falling out of the
loop returning `None` (only possible when `max_retries = 0`). -/
inductive SearchOutcome where
  | found : List Nat → SearchOutcome
  | raisedAbort : String → SearchOutcome
  | raisedOther : String → SearchOutcome
  | fellThrough : SearchOutcome
  deriving DecidableEq

/-- The body of `safe_search`'s `for attempt in range(1, max_retries + 1)`
loop; `fuel` is the number of loop iterations left, and the second component
collects the `time.sleep(base_delay * attempt)` delays performed. -/
def safe_search_go (oracle : Nat → SearchAttempt)
    (max_retries base_delay attempt : Nat) : Nat → SearchOutcome × List Nat
  | 0 => (.fellThrough, [])
  | fuel + 1 =>
    match oracle attempt with
    | .ok v => (.found v, [])
    | .err e => (.raisedOther e, [])
    | .abort e =>
      if attempt = max_retries then (.raisedAbort e, [])
      else
        let rest := safe_search_go oracle max_retries base_delay
          (attempt + 1) fuel
        (rest.1, base_delay * attempt :: rest.2)

/-- `safe_search(client, criteria, max_retries, base_delay)`: attempts are
numbered from 1; only `imaplib.IMAP4.abort` is caught, the final attempt's
abort is re-raised. -/
def safe_search (oracle : Nat → SearchAttempt) (max_retries base_delay : Nat) :
    SearchOutcome × List Nat :=
  safe_search_go oracle max_retries base_delay 1 max_retries

/-- The data `src.fetch(batch_uids, ['RFC822', 'FLAGS', 'INTERNALDATE'])`
returns for one uid, together with the `Message-ID` header the
`BytesParser` best-effort parse would extract from the bytes. -/
structure MsgData where
  rfc822 : String
  flags : List String
  internaldate : Nat
  message_id : Option String
  deriving DecidableEq

/-- Outcome of one `src.fetch` attempt in the batch retry loop.  An `abort`
is caught and followed by `reconnect_imap` plus `select_folder`; either of
those two recovery calls may itself raise and propagate out of
`migrate_mailbox`.  A non-abort exception (`err`) propagates immediately. -/
inductive FetchAttempt where
  | ok : FetchAttempt
  | abort : FetchAttempt
  | abortReconnectFail : FetchAttempt
  | abortReselectFail : FetchAttempt
  | err : FetchAttempt
  deriving DecidableEq

/-- Outcome of one `dst.append` attempt.  An `abort` is caught and followed
by `reconnect_imap` plus `ensure_mailbox` (whose boolean result is ignored
and which never raises); the reconnect may raise and propagate. -/
inductive AppendAttempt where
  | ok : AppendAttempt
  | abort : AppendAttempt
  | abortReconnectFail : AppendAttempt
  | err : AppendAttempt
  deriving DecidableEq

/-- Environment of one `migrate_mailbox` call: for every protocol call the
code can make, its outcome. -/
structure MEnv where
  srcConnectOk : Bool
  dstConnectOk : Bool
  dstOps : MailboxOps
  srcArchOps : MailboxOps
  srcSelectOk : Bool
  searchOracle : Nat → SearchAttempt
  fetchOracle : Nat → Nat → FetchAttempt
  fetchData : Nat → Option MsgData
  appendOracle : Nat → Nat → AppendAttempt
  moveOk : Nat → Bool

/-- Observable side effects of a run: uids successfully appended to the
destination, uids for which `src.move` was attempted, uids successfully
moved, `record_transfer` writes as `(src_mailbox, str(uid))` pairs, and the
number of source/destination reconnects performed by the retry loops. -/
structure Trace where
  appends : List Nat
  moveAttempts : List Nat
  moves : List Nat
  records : List (String × String)
  srcReconnects : Nat
  dstReconnects : Nat
  deriving DecidableEq

/-- The empty trace at the start of a `migrate_mailbox` call. -/
def Trace.initial : Trace := ⟨[], [], [], [], 0, 0⟩

/-- Whether a Python code path returned normally or let an exception
propagate. -/
inductive Outcome where
  | normal : Outcome
  | raised : Outcome
  deriving DecidableEq

/-- Result of the `for attempt in range(3)` fetch loop. -/
inductive FetchLoopRes where
  | fetched : FetchLoopRes
  | exhausted : FetchLoopRes
  | raised : FetchLoopRes
  deriving DecidableEq

/-- Result of the `for attempt in range(3)` append loop. -/
inductive AppendLoopRes where
  | appended : AppendLoopRes
  | exhausted : AppendLoopRes
  | raised : AppendLoopRes
  deriving DecidableEq

/-- The fetch retry loop: attempts are numbered 0,1,2 (`fuel` iterations
remain).  The second component counts completed source reconnects;
`fetch_data` stays `None` after three aborts, which the caller turns into a
batch skip. -/
def fetch_loop (oracle : Nat → FetchAttempt) (attempt : Nat) :
    Nat → FetchLoopRes × Nat
  | 0 => (.exhausted, 0)
  | fuel + 1 =>
    match oracle attempt with
    | .ok => (.fetched, 0)
    | .err => (.raised, 0)
    | .abortReconnectFail => (.raised, 0)
    | .abortReselectFail => (.raised, 1)
    | .abort =>
      let rest := fetch_loop oracle (attempt + 1) fuel
      (rest.1, rest.2 + 1)

/-- The append retry loop: attempts 0,1,2; after the third abort the loop
simply ends (no raise) and control falls through to the move step. -/
def append_loop (oracle : Nat → AppendAttempt) (attempt : Nat) :
    Nat → AppendLoopRes × Nat
  | 0 => (.exhausted, 0)
  | fuel + 1 =>
    match oracle attempt with
    | .ok => (.appended, 0)
    | .err => (.raised, 0)
    | .abortReconnectFail => (.raised, 0)
    | .abort =>
      let rest := append_loop oracle (attempt + 1) fuel
      (rest.1, rest.2 + 1)

/-- The `for uid in batch_uids` loop of `migrate_mailbox`.  Mirrors the
source exactly: skip if already ledgered; skip if the fetch result has no
data for the uid; then the `if not dry_run` block holds the append retry
loop and the guarded move, while `record_transfer` sits *after* that block
at the same indentation level, so it also runs in dry-run mode; a failed
move does `continue`, skipping the ledger write. -/
def run_uids (env : MEnv) (dry_run : Bool) (src_mailbox dst_mailbox : String) :
    List Nat → Ledger → Trace → Outcome × Ledger × Trace
  | [], db, tr => (.normal, db, tr)
  | uid :: rest, db, tr =>
    if already_transferred_by_src db src_mailbox (.num uid) then
      run_uids env dry_run src_mailbox dst_mailbox rest db tr
    else
      match env.fetchData uid with
      | none => run_uids env dry_run src_mailbox dst_mailbox rest db tr
      | some msg =>
        if dry_run then
          run_uids env dry_run src_mailbox dst_mailbox rest
            (record_transfer db src_mailbox (.num uid) (some dst_mailbox)
              none msg.message_id)
            { tr with records :=
                tr.records ++ [(src_mailbox, (Uid.num uid).pyStr)] }
        else
          match append_loop (env.appendOracle uid) 0 3 with
          | (AppendLoopRes.raised, n) =>
            (.raised, db, { tr with dstReconnects := tr.dstReconnects + n })
          | (ar, n) =>
            let tr2 : Trace :=
              { tr with
                dstReconnects := tr.dstReconnects + n
                appends := if ar = AppendLoopRes.appended then
                    tr.appends ++ [uid] else tr.appends
                moveAttempts := tr.moveAttempts ++ [uid] }
            if env.moveOk uid then
              run_uids env dry_run src_mailbox dst_mailbox rest
                (record_transfer db src_mailbox (.num uid) (some dst_mailbox)
                  none msg.message_id)
                { tr2 with
                  moves := tr2.moves ++ [uid]
                  records :=
                    tr2.records ++ [(src_mailbox, (Uid.num uid).pyStr)] }
            else
              run_uids env dry_run src_mailbox dst_mailbox rest db tr2

/-- The `for i in range(0, len(uids), batch)` loop: per batch, the fetch
retry loop, then (`fetch_data is None` ⇒ `continue`) the per-uid loop.
`time.sleep(sleep_between)` has no modelled effect. -/
def run_batches (env : MEnv) (dry_run : Bool)
    (src_mailbox dst_mailbox : String) :
    Nat → List (List Nat) → Ledger → Trace → Outcome × Ledger × Trace
  | _, [], db, tr => (.normal, db, tr)
  | bidx, b :: bs, db, tr =>
    match fetch_loop (env.fetchOracle bidx) 0 3 with
    | (FetchLoopRes.raised, n) =>
      (.raised, db, { tr with srcReconnects := tr.srcReconnects + n })
    | (FetchLoopRes.exhausted, n) =>
      run_batches env dry_run src_mailbox dst_mailbox (bidx + 1) bs db
        { tr with srcReconnects := tr.srcReconnects + n }
    | (FetchLoopRes.fetched, n) =>
      match run_uids env dry_run src_mailbox dst_mailbox b db
          { tr with srcReconnects := tr.srcReconnects + n } with
      | (Outcome.raised, db2, tr2) => (.raised, db2, tr2)
      | (Outcome.normal, db2, tr2) =>
        run_batches env dry_run src_mailbox dst_mailbox (bidx + 1) bs db2 tr2

/-- `uids[i:i+batch]` slicing, driven by enough fuel to cover the list. -/
def chunksF : Nat → Nat → List Nat → List (List Nat)
  | 0, _, _ => []
  | _, _, [] => []
  | fuel + 1, batch, x :: xs =>
    ((x :: xs).take batch) :: chunksF fuel batch ((x :: xs).drop batch)

/-- The batch partition of the uid list (`range(0, len(uids), batch)`). -/
def chunks (batch : Nat) (l : List Nat) : List (List Nat) :=
  chunksF l.length batch l

/-- `migrate_mailbox`, control point by control point: the two
`connect_imap` calls raise on failure (uncaught); a failed
`ensure_mailbox(dst, dst_mailbox)` returns; archive creation result is
ignored; a failed source `select_folder` is caught and returns; a raise out
of `safe_search` is caught and returns (`fellThrough` would make the later
`len(uids)` raise a TypeError, which nothing catches); then the batch loop
runs.  The `finally` block (spinner stop, logouts) has no modelled effect. -/
def migrate_mailbox (env : MEnv) (db : Ledger)
    (src_mailbox dst_mailbox : String) (batch : Nat) (dry_run : Bool) :
    Outcome × Ledger × Trace :=
  if !env.srcConnectOk then (.raised, db, Trace.initial)
  else if !env.dstConnectOk then (.raised, db, Trace.initial)
  else if !(ensure_mailbox env.dstOps dst_mailbox) then
    (.normal, db, Trace.initial)
  else
    let _ := ensure_mailbox env.srcArchOps ("Migrated/" ++ src_mailbox)
    if !env.srcSelectOk then (.normal, db, Trace.initial)
    else
      match safe_search env.searchOracle 5 5 with
      | (SearchOutcome.found uids, _) =>
        run_batches env dry_run src_mailbox dst_mailbox 0
          (chunks batch uids) db Trace.initial
      | (SearchOutcome.raisedAbort _, _) => (.normal, db, Trace.initial)
      | (SearchOutcome.raisedOther _, _) => (.normal, db, Trace.initial)
      | (SearchOutcome.fellThrough, _) => (.raised, db, Trace.initial)

/-- The `for src_mailbox in mailboxes` loop of `main`: excluded mailboxes
are skipped, the destination name is `mapping.get(src_mailbox, src_mailbox)`
(a missing mapping file behaves as the empty map), and `migrate_mailbox` is
called with the default batch size 50.  There is no try/except around the
call, so an exception raised out of `migrate_mailbox` aborts the whole loop.
The third component lists the mailboxes for which the pipeline was
invoked. -/
def run_all (envs : String → MEnv) (mapping : String → Option String)
    (exclude : List String) (dry_run : Bool) :
    List String → Ledger → Outcome × Ledger × List String
  | [], db => (.normal, db, [])
  | m :: rest, db =>
    if exclude.contains m then
      run_all envs mapping exclude dry_run rest db
    else
      match migrate_mailbox (envs m) db m ((mapping m).getD m) 50 dry_run with
      | (Outcome.raised, db2, _) => (.raised, db2, [m])
      | (Outcome.normal, db2, _) =>
        let rr := run_all envs mapping exclude dry_run rest db2
        (rr.1, rr.2.1, m :: rr.2.2)

/-- `main` after configuration loading: the initial mailbox-listing
connection (`connect_imap` then `list_folders`) raises on failure, before
any pipeline runs; otherwise the mailbox loop runs. -/
def main_run (listConnectOk : Bool) (envs : String → MEnv)
    (mapping : String → Option String) (exclude : List String)
    (dry_run : Bool) (mailboxes : List String) (db : Ledger) :
    Outcome × Ledger × List String :=
  if !listConnectOk then (.raised, db, [])
  else run_all envs mapping exclude dry_run mailboxes db

/-- The ledger uniqueness invariant: no two rows share the
`(src_mailbox, src_uid)` pair. -/
def Ledger.uniqKeys (db : Ledger) : Prop :=
  db.Pairwise (fun r s => ¬(r.src_mailbox = s.src_mailbox ∧ r.src_uid = s.src_uid))

/-- The arguments of one `record_transfer` call. -/
abbrev TCall := String × Uid × Option String × Option Uid × Option String

/-- A sequence of `record_transfer` calls applied in order. -/
def apply_transfers (db : Ledger) : List TCall → Ledger
  | [] => db
  | (mb, uid, d, du, mi) :: rest =>
    apply_transfers (record_transfer db mb uid d du mi) rest

/-- Whether a fetch attempt outcome makes `migrate_mailbox` propagate an
exception (a non-abort error, or a failed reconnect/re-select after an
abort). -/
def FetchAttempt.raises : FetchAttempt → Bool
  | .err => true
  | .abortReconnectFail => true
  | .abortReselectFail => true
  | _ => false

/-- Whether an append attempt outcome makes `migrate_mailbox` propagate an
exception. -/
def AppendAttempt.raises : AppendAttempt → Bool
  | .err => true
  | .abortReconnectFail => true
  | _ => false

/-- No protocol call of this `migrate_mailbox` run raises an exception that
the code leaves uncaught: both session opens succeed and no fetch or append
attempt produces a propagating outcome.  (Select/create failures, search
retry exhaustion, fetch retry exhaustion and move failures are all caught by
the code and are allowed here.) -/
def NoRaise (env : MEnv) : Prop :=
  env.srcConnectOk = true ∧ env.dstConnectOk = true ∧
    (∀ b a, (env.fetchOracle b a).raises = false) ∧
    (∀ u a, (env.appendOracle u a).raises = false)

/-- Session oracles for which every select and create succeeds. -/
def opsAll : MailboxOps := ⟨fun _ => true, fun _ => true, fun _ => true⟩

/-- A concrete fetched message used by the closed theorems below. -/
def msgW : MsgData := ⟨"raw message", ["Seen"], 7, some "mid"⟩

/-- An environment in which every protocol call succeeds and the source
mailbox contains the single message with uid 1. -/
def envAll : MEnv :=
  { srcConnectOk := true
    dstConnectOk := true
    dstOps := opsAll
    srcArchOps := opsAll
    srcSelectOk := true
    searchOracle := fun _ => .ok [1]
    fetchOracle := fun _ _ => .ok
    fetchData := fun _ => some msgW
    appendOracle := fun _ _ => .ok
    moveOk := fun _ => true }

/-- Environment for the dry-run evaluation: all calls succeed, one message
with uid 1. -/
def envC1run : MEnv := envAll

/-- Environment where the source mailbox holds uid 5 and every
`dst.append` attempt fails with a session abort while everything else
succeeds. -/
def envC3run : MEnv :=
  { envAll with
    searchOracle := fun _ => .ok [5]
    appendOracle := fun _ _ => .abort }

/-- Per-mailbox environments where opening the source session for mailbox
"A" fails (raising `ConnectionError`) and all calls for other mailboxes
succeed. -/
def envsC2 : String → MEnv :=
  fun m => if m = "A" then { envAll with srcConnectOk := false } else envAll

/-- Environment where the move of uid 1 to the archive fails and everything
else succeeds. -/
def envC5run : MEnv := { envAll with moveOk := fun _ => false }

/-- Environment where the source mailbox holds uids 1 and 2 and every call
succeeds. -/
def envC8run : MEnv := { envAll with searchOracle := fun _ => .ok [1, 2] }

/-- Environment where every fetch attempt aborts (with successful
reconnect and re-select) and everything else succeeds. -/
def envC9run : MEnv := { envAll with fetchOracle := fun _ _ => .abort }

/-! ### Ledger lemmas -/

/-- The record just written by `record_transfer` is found by
`already_transferred_by_src` for the same mailbox and key value. -/
theorem record_mem_self (db : Ledger) (mb : String) (u : Uid)
    (d : Option String) (du : Option Uid) (mi : Option String) :
    already_transferred_by_src (record_transfer db mb u d du mi) mb u = true := by
  simp [already_transferred_by_src, record_transfer, matchesKey]

/-- A key present in the ledger stays present across any `record_transfer`
call (replacement removes a row only when the new row carries the same
key). -/
theorem record_mem_mono (db : Ledger) (mb mb2 : String) (u u2 : Uid)
    (d : Option String) (du : Option Uid) (mi : Option String)
    (h : already_transferred_by_src db mb u = true) :
    already_transferred_by_src (record_transfer db mb2 u2 d du mi) mb u = true := by
  simp only [already_transferred_by_src, List.any_eq_true] at h
  obtain ⟨r, hr, hkey⟩ := h
  simp only [matchesKey, Bool.and_eq_true, beq_iff_eq] at hkey
  by_cases hc : matchesKey mb2 u2.pyStr r = true
  · simp only [matchesKey, Bool.and_eq_true, beq_iff_eq] at hc
    have hmb : mb = mb2 := by rw [← hkey.1, hc.1]
    have huid : u.pyStr = u2.pyStr := by rw [← hkey.2, hc.2]
    simp [already_transferred_by_src, record_transfer, matchesKey, hmb, huid]
  · simp only [already_transferred_by_src, record_transfer, List.any_append,
      List.any_eq_true, Bool.or_eq_true]
    left
    exact ⟨r, List.mem_filter.mpr ⟨hr, by simp [hc]⟩,
      by simp [matchesKey, hkey.1, hkey.2]⟩

/-- `record_transfer` preserves the uniqueness invariant: colliding rows are
removed before the new row is appended. -/
theorem uniqKeys_record (db : Ledger) (mb : String) (u : Uid)
    (d : Option String) (du : Option Uid) (mi : Option String)
    (h : Ledger.uniqKeys db) :
    Ledger.uniqKeys (record_transfer db mb u d du mi) := by
  unfold Ledger.uniqKeys record_transfer
  rw [List.pairwise_append]
  refine ⟨List.Pairwise.sublist (List.filter_sublist db) h,
    List.pairwise_singleton _ _, ?_⟩
  intro a ha b hb
  rcases List.mem_filter.mp ha with ⟨_, hpa⟩
  simp only [List.mem_singleton] at hb
  subst hb
  simp only [matchesKey, Bool.not_eq_eq_eq_not, Bool.not_true,
    Bool.and_eq_false_imp] at hpa
  intro hcon
  simp only at hcon
  rcases hcon with ⟨h1, h2⟩
  have := hpa (by simp [h1])
  simp [h2] at this

/-- Any sequence of `record_transfer` calls preserves uniqueness. -/
theorem uniqKeys_apply_transfers (calls : List TCall) (db : Ledger)
    (h : Ledger.uniqKeys db) : Ledger.uniqKeys (apply_transfers db calls) := by
  induction calls generalizing db with
  | nil => exact h
  | cons c rest ih =>
    obtain ⟨mb, uid, d, du, mi⟩ := c
    exact ih _ (uniqKeys_record db mb uid d du mi h)

/-- After a `record_transfer` call the written pair occurs in exactly one
row. -/
theorem record_countP_one (db : Ledger) (mb : String) (u : Uid)
    (d : Option String) (du : Option Uid) (mi : Option String) :
    (record_transfer db mb u d du mi).countP (matchesKey mb u.pyStr) = 1 := by
  unfold record_transfer
  rw [List.countP_append]
  have h0 : (db.filter (fun r => !(matchesKey mb u.pyStr r))).countP
      (matchesKey mb u.pyStr) = 0 := by
    rw [List.countP_eq_zero]
    intro a ha
    rcases List.mem_filter.mp ha with ⟨_, hpa⟩
    simp only [Bool.not_eq_eq_eq_not, Bool.not_true] at hpa
    simp [hpa]
  rw [h0]
  simp [List.countP, List.countP.go, matchesKey]

/-! ### Claim theorems: ledger and small helpers -/

/-- C10: both `record_transfer` and `already_transferred_by_src` pass the
message key through `str()` before touching the store, so immediately after
`record_transfer(mailbox, key, ...)` the check
`already_transferred_by_src(mailbox, key)` is truthy for the same key value
(integer or string). -/
theorem C10_record_then_check_roundtrip (db : Ledger) (mb : String) (u : Uid)
    (d : Option String) (du : Option Uid) (mi : Option String) :
    already_transferred_by_src (record_transfer db mb u d du mi) mb u = true :=
  record_mem_self db mb u d du mi

/-- C4 counterexample: when `select_folder` fails, `create_folder` succeeds,
and a re-select would fail, `ensure_mailbox` returns `true` while the claimed
behaviour (select; on failure create then re-select; false when both paths
fail) would return `false` — the code never performs the re-select. -/
theorem C4_create_without_reselect :
    ensure_mailbox ⟨fun _ => false, fun _ => true, fun _ => false⟩ "Archive"
        = true ∧
      ensureMailboxSelected_spec
        ⟨fun _ => false, fun _ => true, fun _ => false⟩ "Archive" = false := by
  exact ⟨rfl, rfl⟩

/-- C4 amended: `ensure_mailbox` first attempts to select the mailbox; on
select failure it attempts to create it and returns `true` immediately if
creation succeeds (no re-select happens); it returns `false` exactly when
both the select and the create fail. -/
theorem C4_return_condition (ops : MailboxOps) (mb : String) :
    ensure_mailbox ops mb = false ↔
      (ops.selectOk mb = false ∧ ops.createOk mb = false) := by
  unfold ensure_mailbox
  rcases h1 : ops.selectOk mb <;> rcases h2 : ops.createOk mb <;> simp [h1, h2]

/-- C6: the pair `(sourceMailbox, sourceMessageKey)` is unique in the ledger
after any sequence of `record_transfer` calls; a colliding write replaces
the prior record (afterwards exactly one row carries the written pair, no
error); and the record is in the ledger `record_transfer` returns (the
commit precedes the return). -/
theorem C6_ledger_unique_replace (db : Ledger) (calls : List TCall)
    (mb : String) (u : Uid) (d : Option String) (du : Option Uid)
    (mi : Option String) (h : Ledger.uniqKeys db) :
    Ledger.uniqKeys (apply_transfers db calls) ∧
      (record_transfer db mb u d du mi).countP (matchesKey mb u.pyStr) = 1 ∧
      already_transferred_by_src (record_transfer db mb u d du mi) mb u
        = true :=
  ⟨uniqKeys_apply_transfers calls db h, record_countP_one db mb u d du mi,
    record_mem_self db mb u d du mi⟩

/-- C6 witness at a concrete ledger and call sequence. -/
theorem C6_ledger_unique_replace_witness :
    Ledger.uniqKeys (apply_transfers []
        [("INBOX", Uid.num 1, some "D", none, none),
         ("INBOX", Uid.num 1, some "E", none, some "mid")]) ∧
      (record_transfer [] "INBOX" (Uid.num 2) (some "D") none
          none).countP (matchesKey "INBOX" (Uid.num 2).pyStr) = 1 ∧
      already_transferred_by_src
        (record_transfer [] "INBOX" (Uid.num 2) (some "D") none none)
        "INBOX" (Uid.num 2) = true :=
  C6_ledger_unique_replace [] _ "INBOX" (Uid.num 2) (some "D") none none
    (List.Pairwise.nil)

/-- C7: `safe_search` with its defaults (5 attempts, base delay 5) retries
only on session aborts — a non-abort exception propagates at once with no
delay; after attempt `k` aborts (`k < 5`) it sleeps `5 * k` before attempt
`k + 1` (linear backoff: delays 5, 10, 15, 20); and when attempt 5 also
aborts the terminal abort is re-raised instead of retried or swallowed. -/
theorem C7_safe_search_linear_retry (oracleA oracleE oracleS : Nat → SearchAttempt)
    (e1 e2 e3 e4 e5 f g : String) (v : List Nat)
    (h1 : oracleA 1 = .abort e1) (h2 : oracleA 2 = .abort e2)
    (h3 : oracleA 3 = .abort e3) (h4 : oracleA 4 = .abort e4)
    (h5 : oracleA 5 = .abort e5)
    (hf : oracleE 1 = .err f)
    (hg1 : oracleS 1 = .abort g) (hg2 : oracleS 2 = .ok v) :
    safe_search oracleA 5 5 = (.raisedAbort e5, [5, 10, 15, 20]) ∧
      safe_search oracleE 5 5 = (.raisedOther f, []) ∧
      safe_search oracleS 5 5 = (.found v, [5]) := by
  refine ⟨?_, ?_, ?_⟩ <;>
    simp [safe_search, safe_search_go, h1, h2, h3, h4, h5, hf, hg1, hg2]

/-- C7 witness with concrete oracles. -/
theorem C7_safe_search_linear_retry_witness :
    safe_search (fun _ => .abort "gone") 5 5 =
        (.raisedAbort "gone", [5, 10, 15, 20]) ∧
      safe_search (fun _ => .err "no mailbox") 5 5 =
        (.raisedOther "no mailbox", []) ∧
      safe_search (fun k => if k = 1 then .abort "gone" else .ok [3]) 5 5 =
        (.found [3], [5]) :=
  C7_safe_search_linear_retry (fun _ => .abort "gone")
    (fun _ => .err "no mailbox")
    (fun k => if k = 1 then .abort "gone" else .ok [3])
    "gone" "gone" "gone" "gone" "gone" "no mailbox" "gone" [3]
    rfl rfl rfl rfl rfl rfl rfl rfl

/-! ### Claim theorems: pipeline bugs found by evaluation -/

/-- C1: evaluating a dry run over a source mailbox holding the single
unledgered uid 1 shows the code performing neither append nor move yet
calling `record_transfer` and committing a ledger row — the
`record_transfer(...)` call sits outside the `if not dry_run:` block, so the
ledger is changed by a dry run, contradicting the claim. -/
theorem C1_dry_run_writes_ledger :
    migrate_mailbox envC1run [] "INBOX" "INBOX" 50 true =
      (.normal, [⟨"INBOX", "1", some "INBOX", none, some "mid"⟩],
        ⟨[], [], [], [("INBOX", "1")], 0, 0⟩) := by
  decide

/-- C3: evaluating a run where all three append attempts for uid 5 abort
shows the pipeline falling through the retry loop without raising,
attempting (and completing) the move of uid 5 to the archive, and writing a
ledger row for key "5" — contradicting the claim that the key gets no
record and no move attempt. -/
theorem C3_append_exhaustion_moves_and_records :
    migrate_mailbox envC3run [] "INBOX" "DEST" 50 false =
      (.normal, [⟨"INBOX", "5", some "DEST", none, some "mid"⟩],
        ⟨[], [5], [5], [("INBOX", "5")], 0, 3⟩) := by
  decide

/-- C2 counterexample: with two mailboxes "A" and "B" and a source-session
connection failure inside mailbox "A"'s pipeline, the run aborts after
attempting only "A": mailbox "B" is never attempted, although the claim says
a connection failure inside one mailbox's pipeline is scoped to that mailbox
and every subsequent mailbox is still attempted. -/
theorem C2_pipeline_failure_aborts_run :
    main_run true envsC2 (fun _ => none) [] false ["A", "B"] [] =
        (.raised, [], ["A"]) ∧
      "B" ∉ (main_run true envsC2 (fun _ => none) [] false
        ["A", "B"] []).2.2 := by
  refine ⟨by decide, ?_⟩
  intro hmem
  rw [show main_run true envsC2 (fun _ => none) [] false ["A", "B"] [] =
    (.raised, [], ["A"]) from by decide] at hmem
  simp at hmem

/-! ### Retry-loop lemmas -/

theorem fetch_loop_ok_first (oracle : Nat → FetchAttempt) (a fuel : Nat)
    (h : oracle a = .ok) : fetch_loop oracle a (fuel + 1) = (.fetched, 0) := by
  simp [fetch_loop, h]

theorem append_loop_ok_first (oracle : Nat → AppendAttempt) (a fuel : Nat)
    (h : oracle a = .ok) : append_loop oracle a (fuel + 1) = (.appended, 0) := by
  simp [append_loop, h]

theorem fetch_loop_three_aborts (oracle : Nat → FetchAttempt)
    (h0 : oracle 0 = .abort) (h1 : oracle 1 = .abort) (h2 : oracle 2 = .abort) :
    fetch_loop oracle 0 3 = (.exhausted, 3) := by
  simp [fetch_loop, h0, h1, h2]

theorem append_loop_three_aborts (oracle : Nat → AppendAttempt)
    (h0 : oracle 0 = .abort) (h1 : oracle 1 = .abort) (h2 : oracle 2 = .abort) :
    append_loop oracle 0 3 = (.exhausted, 3) := by
  simp [append_loop, h0, h1, h2]

/-- C9: when all three fetch attempts for a batch abort (each followed by a
successful source reconnect and re-select), the pipeline skips that entire
batch — identical ledger and per-message effects as if the batch were not
there, the only difference being the three reconnects — and continues with
the next batch. -/
theorem C9_fetch_exhaustion_skips_batch (env : MEnv) (dry_run : Bool)
    (mb dmb : String) (bidx : Nat) (b : List Nat) (bs : List (List Nat))
    (db : Ledger) (tr : Trace)
    (h0 : env.fetchOracle bidx 0 = .abort)
    (h1 : env.fetchOracle bidx 1 = .abort)
    (h2 : env.fetchOracle bidx 2 = .abort) :
    run_batches env dry_run mb dmb bidx (b :: bs) db tr =
      run_batches env dry_run mb dmb (bidx + 1) bs db
        { tr with srcReconnects := tr.srcReconnects + 3 } := by
  have hf := fetch_loop_three_aborts (env.fetchOracle bidx) h0 h1 h2
  simp [run_batches, hf]

/-- C9 witness at a concrete batch run. -/
theorem C9_fetch_exhaustion_skips_batch_witness :
    run_batches envC9run false "INBOX" "DEST" 0 [[1]] [] Trace.initial =
      run_batches envC9run false "INBOX" "DEST" 1 [] []
        { Trace.initial with srcReconnects := Trace.initial.srcReconnects + 3 } :=
  C9_fetch_exhaustion_skips_batch envC9run false "INBOX" "DEST" 0 [1] [] []
    Trace.initial rfl rfl rfl

/-- C5: in a non-dry-run iteration for an unledgered message with fetch
data, if the move to the archive fails then the iteration writes no ledger
record for the pair — processing `uid :: rest` is the same as processing
`rest` from the unchanged ledger, except the trace notes the appends,
reconnects and attempted move — so a future run re-attempts the message. -/
theorem C5_move_failure_skips_record (env : MEnv) (mb dmb : String)
    (uid : Nat) (rest : List Nat) (db : Ledger) (tr : Trace) (msg : MsgData)
    (hnot : already_transferred_by_src db mb (.num uid) = false)
    (hdata : env.fetchData uid = some msg)
    (hnoraise : (append_loop (env.appendOracle uid) 0 3).1 ≠ .raised)
    (hmove : env.moveOk uid = false) :
    run_uids env false mb dmb (uid :: rest) db tr =
      run_uids env false mb dmb rest db
        { tr with
          dstReconnects :=
            tr.dstReconnects + (append_loop (env.appendOracle uid) 0 3).2
          appends :=
            if (append_loop (env.appendOracle uid) 0 3).1 =
                AppendLoopRes.appended then
              tr.appends ++ [uid] else tr.appends
          moveAttempts := tr.moveAttempts ++ [uid] } := by
  rcases hap : append_loop (env.appendOracle uid) 0 3 with ⟨ar, n⟩
  cases ar with
  | raised => exact absurd (by rw [hap]) hnoraise
  | appended => simp [run_uids, hnot, hdata, hap, hmove]
  | exhausted => simp [run_uids, hnot, hdata, hap, hmove]

/-- C5 witness at a concrete iteration. -/
theorem C5_move_failure_skips_record_witness :
    run_uids envC5run false "INBOX" "DEST" [1] [] Trace.initial =
      run_uids envC5run false "INBOX" "DEST" [] []
        { Trace.initial with
          dstReconnects := Trace.initial.dstReconnects +
            (append_loop (envC5run.appendOracle 1) 0 3).2
          appends :=
            if (append_loop (envC5run.appendOracle 1) 0 3).1 =
                AppendLoopRes.appended then
              Trace.initial.appends ++ [1] else Trace.initial.appends
          moveAttempts := Trace.initial.moveAttempts ++ [1] } :=
  C5_move_failure_skips_record envC5run "INBOX" "DEST" 1 [] [] Trace.initial
    msgW rfl rfl (by decide) rfl

/-! ### Exception-freedom lemmas -/

theorem fetch_loop_not_raised (oracle : Nat → FetchAttempt)
    (h : ∀ a, (oracle a).raises = false) (attempt fuel : Nat) :
    (fetch_loop oracle attempt fuel).1 ≠ .raised := by
  induction fuel generalizing attempt with
  | zero => simp [fetch_loop]
  | succ n ih =>
    cases ho : oracle attempt with
    | ok => simp [fetch_loop, ho]
    | abort => simpa [fetch_loop, ho] using ih (attempt + 1)
    | abortReconnectFail =>
      have := h attempt
      rw [ho] at this
      simp [FetchAttempt.raises] at this
    | abortReselectFail =>
      have := h attempt
      rw [ho] at this
      simp [FetchAttempt.raises] at this
    | err =>
      have := h attempt
      rw [ho] at this
      simp [FetchAttempt.raises] at this

theorem append_loop_not_raised (oracle : Nat → AppendAttempt)
    (h : ∀ a, (oracle a).raises = false) (attempt fuel : Nat) :
    (append_loop oracle attempt fuel).1 ≠ .raised := by
  induction fuel generalizing attempt with
  | zero => simp [append_loop]
  | succ n ih =>
    cases ho : oracle attempt with
    | ok => simp [append_loop, ho]
    | abort => simpa [append_loop, ho] using ih (attempt + 1)
    | abortReconnectFail =>
      have := h attempt
      rw [ho] at this
      simp [AppendAttempt.raises] at this
    | err =>
      have := h attempt
      rw [ho] at this
      simp [AppendAttempt.raises] at this

theorem run_uids_normal (env : MEnv) (dry_run : Bool) (mb dmb : String)
    (hap : ∀ u a, (env.appendOracle u a).raises = false) (l : List Nat) :
    ∀ db tr, (run_uids env dry_run mb dmb l db tr).1 = .normal := by
  induction l with
  | nil => intro db tr; simp [run_uids]
  | cons uid rest ih =>
    intro db tr
    cases halready : already_transferred_by_src db mb (.num uid) with
    | true => simpa [run_uids, halready] using ih db tr
    | false =>
      cases hdata : env.fetchData uid with
      | none => simpa [run_uids, halready, hdata] using ih db tr
      | some msg =>
        cases dry_run with
        | true => simp [run_uids, halready, hdata, ih]
        | false =>
          rcases hloop : append_loop (env.appendOracle uid) 0 3 with ⟨ar, n⟩
          cases ar with
          | raised =>
            exact absurd (by rw [hloop])
              (append_loop_not_raised (env.appendOracle uid) (hap uid) 0 3)
          | appended =>
            cases hm : env.moveOk uid <;>
              simp [run_uids, halready, hdata, hloop, hm, ih]
          | exhausted =>
            cases hm : env.moveOk uid <;>
              simp [run_uids, halready, hdata, hloop, hm, ih]

theorem run_batches_normal (env : MEnv) (dry_run : Bool) (mb dmb : String)
    (hfe : ∀ b a, (env.fetchOracle b a).raises = false)
    (hap : ∀ u a, (env.appendOracle u a).raises = false)
    (bs : List (List Nat)) :
    ∀ bidx db tr, (run_batches env dry_run mb dmb bidx bs db tr).1 = .normal := by
  induction bs with
  | nil => intro bidx db tr; simp [run_batches]
  | cons b rest ih =>
    intro bidx db tr
    rcases hloop : fetch_loop (env.fetchOracle bidx) 0 3 with ⟨fr, n⟩
    cases fr with
    | raised =>
      exact absurd (by rw [hloop])
        (fetch_loop_not_raised (env.fetchOracle bidx) (hfe bidx) 0 3)
    | exhausted => simp [run_batches, hloop, ih]
    | fetched =>
      rcases hu : run_uids env dry_run mb dmb b db
          { tr with srcReconnects := tr.srcReconnects + n } with ⟨o, db2, tr2⟩
      have : o = .normal := by
        have := run_uids_normal env dry_run mb dmb hap b db
          { tr with srcReconnects := tr.srcReconnects + n }
        rw [hu] at this
        exact this
      subst this
      simp [run_batches, hloop, hu, ih]

/-- `safe_search_go` cannot fall through while attempts remain up to
`max_retries`. -/
theorem safe_search_go_ne_fellThrough (oracle : Nat → SearchAttempt)
    (max_retries base_delay : Nat) (fuel : Nat) :
    ∀ attempt, attempt ≤ max_retries → max_retries < attempt + fuel →
      (safe_search_go oracle max_retries base_delay attempt fuel).1 ≠
        .fellThrough := by
  induction fuel with
  | zero => intro attempt h1 h2; omega
  | succ n ih =>
    intro attempt h1 h2
    cases ho : oracle attempt with
    | ok v => simp [safe_search_go, ho]
    | err e => simp [safe_search_go, ho]
    | abort e =>
      by_cases he : attempt = max_retries
      · subst he
        simp [safe_search_go, ho]
      · have hlt : attempt < max_retries := lt_of_le_of_ne h1 he
        have := ih (attempt + 1) hlt (by omega)
        simpa [safe_search_go, ho, he] using this

/-- With the defaults (5 attempts) `safe_search` never returns `None`. -/
theorem safe_search_ne_fellThrough (oracle : Nat → SearchAttempt) :
    (safe_search oracle 5 5).1 ≠ .fellThrough :=
  safe_search_go_ne_fellThrough oracle 5 5 5 1 (by omega) (by omega)

/-- `migrate_mailbox` returns normally whenever no protocol call raises an
exception the code leaves uncaught. -/
theorem migrate_normal_of_no_raise (env : MEnv) (db : Ledger)
    (mb dmb : String) (batch : Nat) (dry_run : Bool) (h : NoRaise env) :
    (migrate_mailbox env db mb dmb batch dry_run).1 = .normal := by
  obtain ⟨hsc, hdc, hfe, hap⟩ := h
  unfold migrate_mailbox
  rw [hsc, hdc]
  cases hens : ensure_mailbox env.dstOps dmb with
  | false => simp
  | true =>
    cases hsel : env.srcSelectOk with
    | false => simp
    | true =>
      rcases hs : safe_search env.searchOracle 5 5 with ⟨o, ds⟩
      cases o with
      | found uids =>
        simpa [hs] using run_batches_normal env dry_run mb dmb hfe hap
          (chunks batch uids) 0 db Trace.initial
      | raisedAbort e => simp [hs]
      | raisedOther e => simp [hs]
      | fellThrough =>
        exact absurd (by rw [hs]) (safe_search_ne_fellThrough env.searchOracle)

/-- C2 amended: the orchestrator loop has no exception handler, so a failure
raised inside one mailbox's pipeline (for example a connection or
authentication failure opening that mailbox's source or destination session)
aborts the entire run, not just that mailbox.  What holds is: when no
mailbox's pipeline raises an uncaught exception, every non-excluded mailbox
is attempted, in order — the errors `migrate_mailbox` itself catches
(destination mailbox not selectable or creatable, source select failure,
search retry exhaustion, fetch exhaustion, move failures) abort at most
their own mailbox. -/
theorem C2_no_raise_attempts_all (envs : String → MEnv)
    (mapping : String → Option String) (exclude : List String)
    (dry_run : Bool) (mailboxes : List String) (db : Ledger)
    (h : ∀ m, NoRaise (envs m)) :
    (run_all envs mapping exclude dry_run mailboxes db).1 = .normal ∧
      (run_all envs mapping exclude dry_run mailboxes db).2.2 =
        mailboxes.filter (fun m => !(exclude.contains m)) := by
  induction mailboxes generalizing db with
  | nil => simp [run_all]
  | cons m rest ih =>
    cases hm : exclude.contains m with
    | true =>
      have hm2 : m ∈ exclude := by simpa using hm
      simpa [run_all, hm2, List.filter_cons] using ih db
    | false =>
      have hm2 : m ∉ exclude := by simpa using hm
      rcases hr : migrate_mailbox (envs m) db m ((mapping m).getD m) 50
          dry_run with ⟨o, db2, tr2⟩
      have ho : o = .normal := by
        have := migrate_normal_of_no_raise (envs m) db m ((mapping m).getD m)
          50 dry_run (h m)
        rw [hr] at this
        exact this
      subst ho
      have hrest := ih db2
      simp [run_all, hm2, hr, List.filter_cons, hrest.1, hrest.2]

/-- C2 amended claim witness at a concrete mailbox list with an exclusion. -/
theorem C2_no_raise_attempts_all_witness :
    (run_all (fun _ => envAll) (fun _ => none) ["X"] false
        ["A", "X", "B"] []).1 = .normal ∧
      (run_all (fun _ => envAll) (fun _ => none) ["X"] false
          ["A", "X", "B"] []).2.2 =
        ["A", "X", "B"].filter (fun m => !(List.contains ["X"] m)) :=
  C2_no_raise_attempts_all (fun _ => envAll) (fun _ => none) ["X"] false
    ["A", "X", "B"] []
    (fun _ => ⟨rfl, rfl, fun _ _ => rfl, fun _ _ => rfl⟩)

/-! ### Idempotency lemmas -/

/-- A uid with a ledger record is skipped before any append, move or ledger
write. -/
theorem run_uids_skip (env : MEnv) (dry_run : Bool) (mb dmb : String)
    (uid : Nat) (rest : List Nat) (db : Ledger) (tr : Trace)
    (h : already_transferred_by_src db mb (.num uid) = true) :
    run_uids env dry_run mb dmb (uid :: rest) db tr =
      run_uids env dry_run mb dmb rest db tr := by
  simp [run_uids, h]

/-- One fully successful non-dry-run iteration: append on the first attempt,
move succeeds, ledger row written. -/
theorem run_uids_step_success (env : MEnv) (mb dmb : String) (uid : Nat)
    (rest : List Nat) (db : Ledger) (tr : Trace) (msg : MsgData)
    (hnot : already_transferred_by_src db mb (.num uid) = false)
    (hdata : env.fetchData uid = some msg)
    (hap : append_loop (env.appendOracle uid) 0 3 = (.appended, 0))
    (hmv : env.moveOk uid = true) :
    run_uids env false mb dmb (uid :: rest) db tr =
      run_uids env false mb dmb rest
        (record_transfer db mb (.num uid) (some dmb) none msg.message_id)
        { tr with
          appends := tr.appends ++ [uid]
          moveAttempts := tr.moveAttempts ++ [uid]
          moves := tr.moves ++ [uid]
          records := tr.records ++ [(mb, (Uid.num uid).pyStr)] } := by
  simp [run_uids, hnot, hdata, hap, hmv]

/-- After a run in which every fetch succeeds, every append succeeds on its
first attempt and every move succeeds, each processed uid has a ledger
record, and records present before are still present. -/
theorem run_uids_success (env : MEnv) (mb dmb : String)
    (hdata : ∀ u, (env.fetchData u).isSome = true)
    (happ : ∀ u, env.appendOracle u 0 = .ok)
    (hmov : ∀ u, env.moveOk u = true) (l : List Nat) :
    ∀ db tr, (run_uids env false mb dmb l db tr).1 = .normal ∧
      ∀ u, (already_transferred_by_src db mb (.num u) = true ∨ u ∈ l) →
        already_transferred_by_src
          (run_uids env false mb dmb l db tr).2.1 mb (.num u) = true := by
  induction l with
  | nil =>
    intro db tr
    refine ⟨by simp [run_uids], fun u hu => ?_⟩
    rcases hu with hu | hu
    · simpa [run_uids] using hu
    · simp at hu
  | cons uid rest ih =>
    intro db tr
    cases halready : already_transferred_by_src db mb (.num uid) with
    | true =>
      rw [run_uids_skip env false mb dmb uid rest db tr halready]
      refine ⟨(ih db tr).1, fun u hu => (ih db tr).2 u ?_⟩
      rcases hu with hu | hu
      · exact Or.inl hu
      · rcases List.mem_cons.mp hu with rfl | hm
        · exact Or.inl halready
        · exact Or.inr hm
    | false =>
      rcases hO : env.fetchData uid with _ | msg
      · exfalso
        have := hdata uid
        rw [hO] at this
        simp at this
      · have hap3 : append_loop (env.appendOracle uid) 0 3 = (.appended, 0) :=
          append_loop_ok_first (env.appendOracle uid) 0 2 (happ uid)
        rw [run_uids_step_success env mb dmb uid rest db tr msg halready hO
          hap3 (hmov uid)]
        refine ⟨(ih _ _).1, fun u hu => (ih _ _).2 u ?_⟩
        rcases hu with hu | hu
        · exact Or.inl (record_mem_mono db mb mb (.num u) (.num uid)
            (some dmb) none msg.message_id hu)
        · rcases List.mem_cons.mp hu with rfl | hm
          · exact Or.inl (record_mem_self db mb (.num u) (some dmb) none
              msg.message_id)
          · exact Or.inr hm

/-- A per-uid run over uids that are all already ledgered does nothing. -/
theorem run_uids_inert (env : MEnv) (dry_run : Bool) (mb dmb : String)
    (l : List Nat) :
    ∀ db tr, (∀ u ∈ l, already_transferred_by_src db mb (.num u) = true) →
      run_uids env dry_run mb dmb l db tr = (.normal, db, tr) := by
  induction l with
  | nil => intro db tr _; simp [run_uids]
  | cons uid rest ih =>
    intro db tr h
    rw [run_uids_skip env dry_run mb dmb uid rest db tr
      (h uid (List.mem_cons_self uid rest))]
    exact ih db tr (fun u hu => h u (List.mem_cons_of_mem uid hu))

/-- Batch-loop analogue of `run_uids_success`. -/
theorem run_batches_success (env : MEnv) (mb dmb : String)
    (hfe : ∀ b, env.fetchOracle b 0 = .ok)
    (hdata : ∀ u, (env.fetchData u).isSome = true)
    (happ : ∀ u, env.appendOracle u 0 = .ok)
    (hmov : ∀ u, env.moveOk u = true) (bs : List (List Nat)) :
    ∀ bidx db tr, (run_batches env false mb dmb bidx bs db tr).1 = .normal ∧
      ∀ u, (already_transferred_by_src db mb (.num u) = true ∨
          ∃ b, b ∈ bs ∧ u ∈ b) →
        already_transferred_by_src
          (run_batches env false mb dmb bidx bs db tr).2.1 mb (.num u)
          = true := by
  induction bs with
  | nil =>
    intro bidx db tr
    refine ⟨by simp [run_batches], fun u hu => ?_⟩
    rcases hu with hu | ⟨b, hb, _⟩
    · simpa [run_batches] using hu
    · simp at hb
  | cons b bs2 ih =>
    intro bidx db tr
    have hf : fetch_loop (env.fetchOracle bidx) 0 3 = (.fetched, 0) :=
      fetch_loop_ok_first (env.fetchOracle bidx) 0 2 (hfe bidx)
    have hub := run_uids_success env mb dmb hdata happ hmov b db tr
    rcases hu : run_uids env false mb dmb b db tr with ⟨o, db2, tr2⟩
    rw [hu] at hub
    have ho : o = .normal := hub.1
    subst ho
    have heq : run_batches env false mb dmb bidx (b :: bs2) db tr =
        run_batches env false mb dmb (bidx + 1) bs2 db2 tr2 := by
      simp [run_batches, hf, hu]
    rw [heq]
    refine ⟨(ih (bidx + 1) db2 tr2).1, fun u hu2 =>
      (ih (bidx + 1) db2 tr2).2 u ?_⟩
    rcases hu2 with h | ⟨c, hc, huc⟩
    · exact Or.inl (hub.2 u (Or.inl h))
    · rcases List.mem_cons.mp hc with rfl | hmem
      · exact Or.inl (hub.2 u (Or.inr huc))
      · exact Or.inr ⟨c, hmem, huc⟩

/-- A batch run whose uids are all already ledgered changes nothing. -/
theorem run_batches_inert (env : MEnv) (mb dmb : String)
    (hfe : ∀ b, env.fetchOracle b 0 = .ok) (bs : List (List Nat)) :
    ∀ bidx db tr,
      (∀ b ∈ bs, ∀ u ∈ b, already_transferred_by_src db mb (.num u) = true) →
      run_batches env false mb dmb bidx bs db tr = (.normal, db, tr) := by
  induction bs with
  | nil => intro bidx db tr _; simp [run_batches]
  | cons b bs2 ih =>
    intro bidx db tr h
    have hf : fetch_loop (env.fetchOracle bidx) 0 3 = (.fetched, 0) :=
      fetch_loop_ok_first (env.fetchOracle bidx) 0 2 (hfe bidx)
    have hui := run_uids_inert env false mb dmb b db tr
      (h b (List.mem_cons_self b bs2))
    have heq : run_batches env false mb dmb bidx (b :: bs2) db tr =
        run_batches env false mb dmb (bidx + 1) bs2 db tr := by
      simp [run_batches, hf, hui]
    rw [heq]
    exact ih (bidx + 1) db tr
      (fun c hc u hu => h c (List.mem_cons_of_mem b hc) u hu)

/-- When the first search attempt succeeds, `safe_search` returns its uids
with no delay. -/
theorem safe_search_found (oracle : Nat → SearchAttempt) (v : List Nat)
    (h : oracle 1 = .ok v) : safe_search oracle 5 5 = (.found v, []) := by
  simp [safe_search, safe_search_go, h]

/-- C8: over an unchanged source mailbox (same search result, all protocol
operations succeeding), running the non-dry-run pipeline a second time
leaves the ledger exactly as after the first run and performs no append, no
move and no ledger write at all (the trace of the second run is empty):
every key recorded by the first run is skipped by the ledger check before
any side effect. -/
theorem C8_pipeline_idempotent (env : MEnv) (db : Ledger) (mb dmb : String)
    (batch : Nat) (uids : List Nat) (hbatch : 0 < batch)
    (hsc : env.srcConnectOk = true) (hdc : env.dstConnectOk = true)
    (hens : ensure_mailbox env.dstOps dmb = true)
    (hsel : env.srcSelectOk = true)
    (hsearch : env.searchOracle 1 = .ok uids)
    (hfe : ∀ b, env.fetchOracle b 0 = .ok)
    (hdata : ∀ u, (env.fetchData u).isSome = true)
    (happ : ∀ u, env.appendOracle u 0 = .ok)
    (hmov : ∀ u, env.moveOk u = true) :
    (migrate_mailbox env db mb dmb batch false).1 = .normal ∧
      migrate_mailbox env (migrate_mailbox env db mb dmb batch false).2.1
          mb dmb batch false =
        (.normal, (migrate_mailbox env db mb dmb batch false).2.1,
          Trace.initial) := by
  have hss : safe_search env.searchOracle 5 5 = (.found uids, []) :=
    safe_search_found env.searchOracle uids hsearch
  have hm1 : migrate_mailbox env db mb dmb batch false =
      run_batches env false mb dmb 0 (chunks batch uids) db Trace.initial := by
    simp [migrate_mailbox, hsc, hdc, hens, hsel, hss]
  have hrb := run_batches_success env mb dmb hfe hdata happ hmov
    (chunks batch uids) 0 db Trace.initial
  constructor
  · rw [hm1]
    exact hrb.1
  · have hm2 : migrate_mailbox env
        (migrate_mailbox env db mb dmb batch false).2.1 mb dmb batch false =
        run_batches env false mb dmb 0 (chunks batch uids)
          (migrate_mailbox env db mb dmb batch false).2.1 Trace.initial := by
      simp [migrate_mailbox, hsc, hdc, hens, hsel, hss]
    rw [hm2, hm1]
    exact run_batches_inert env mb dmb hfe (chunks batch uids) 0
      (run_batches env false mb dmb 0 (chunks batch uids) db Trace.initial).2.1
      Trace.initial
      (fun b hb u hu => hrb.2 u (Or.inr ⟨b, hb, hu⟩))

/-- C8 witness: two messages, everything succeeding, second run inert. -/
theorem C8_pipeline_idempotent_witness :
    (migrate_mailbox envC8run [] "INBOX" "DEST" 50 false).1 = .normal ∧
      migrate_mailbox envC8run
          (migrate_mailbox envC8run [] "INBOX" "DEST" 50 false).2.1
          "INBOX" "DEST" 50 false =
        (.normal, (migrate_mailbox envC8run [] "INBOX" "DEST" 50 false).2.1,
          Trace.initial) :=
  C8_pipeline_idempotent envC8run [] "INBOX" "DEST" 50 [1, 2] (by decide)
    rfl rfl rfl rfl rfl (fun _ => rfl) (fun _ => rfl) (fun _ => rfl)
    (fun _ => rfl)
